import Mathlib

/-!
# Verification of the iRoutine analytics core

Shallow embedding of the pure analytics computations of the iRoutine backend
(`app/routers/analytics.py`, `app/routers/cross_domain.py`,
`app/services/insights.py`, `app/__tests__/test_interruption_metrics.py`),
together with theorems settling the specification claims about them.

Modelling conventions:
* timestamps are integers (seconds since the epoch, UTC); an ISO date string
  is represented by its day index (`dayOf`), so lexicographic order on ISO
  date strings coincides with `≤` on day indices;
* Python floats are modelled by `ℚ` (all constants appearing in the code are
  decimal); `round` in Python is round-half-even while Mathlib `round` is
  round-half-up — the two agree except at exact ties, which occur in none of
  the concrete computations below;
* the square root taken by `variance ** 0.5` forces the consistency score
  into `ℝ`;
* a Python `ZeroDivisionError` is modelled by `Except.error`.
-/

namespace IRoutine

/-- An activity row as consumed by the analytics core: its category string and
its parsed `start_time` / `end_time` timestamps (seconds since epoch, UTC). -/
structure Activity where
  category : String
  start_time : ℤ
  end_time : ℤ
  deriving DecidableEq, Repr

/-- An interruption row: parsed `time` timestamp plus the two optional fields
used by the interruption cost model (`duration_minutes`, `type`). -/
structure Interruption where
  time : ℤ
  duration_minutes : Option ℚ
  type : Option String
  deriving DecidableEq, Repr

/-- A transaction row: its `date` (day index for the ISO date string),
`amount` and `type` (`"expense"` or `"income"`). -/
structure Txn where
  date : ℤ
  amount : ℚ
  type : String
  deriving DecidableEq, Repr

/-- An energy-log row: `date` (day index), `energy_level`, `stress_level`. -/
structure EnergyLog where
  date : ℤ
  energy_level : ℤ
  stress_level : ℤ
  deriving DecidableEq, Repr

/-- `(end - start).total_seconds() / 60`. -/
def duration_minutes (a : Activity) : ℚ :=
  ((a.end_time - a.start_time : ℤ) : ℚ) / 60

/-- `(end - start).total_seconds() / 3600`. -/
def duration_hours (a : Activity) : ℚ :=
  ((a.end_time - a.start_time : ℤ) : ℚ) / 3600

/-- `datetime.date()` of a timestamp: its calendar day index.  Integer `/` is
Euclidean division, which for the positive divisor 86400 is floor division. -/
def dayOf (t : ℤ) : ℤ := t / 86400

/-- `datetime.hour` of a timestamp (UTC). -/
def hourOf (t : ℤ) : ℤ := t % 86400 / 3600

/-- Python `round(x, 1)`. -/
def round1 (x : ℚ) : ℚ := (round (10 * x) : ℤ) / 10

/-- Python `round(x, 2)`. -/
def round2 (x : ℚ) : ℚ := (round (100 * x) : ℤ) / 100

/-- Auxiliary for `firstDedup`: drop elements already seen. -/
def firstDedupAux : List ℤ → List ℤ → List ℤ
  | _, [] => []
  | seen, x :: xs =>
      if x ∈ seen then firstDedupAux seen xs
      else x :: firstDedupAux (x :: seen) xs

/-- The distinct elements of a list in first-encounter order: the key/element
sequence of a Python `set`/`dict` built by one left-to-right pass. -/
def firstDedup (l : List ℤ) : List ℤ := firstDedupAux [] l

/-! ## Streak engine (`analytics.py`, `get_streaks`)

The route reduces activity `start_time`s to calendar days, deduplicates them
into a set, sorts the set descending, and then runs the two loops below. -/

/-- The response model `StreakResponse`. -/
structure StreakResponse where
  current_streak : ℕ
  longest_streak : ℕ
  days_with_activity : ℕ
  deriving DecidableEq, Repr

/-- The `for i, day in enumerate(sorted_days)` loop of `get_streaks`: walking
the descending day list, count matches against `today - timedelta(days=i)`,
stopping at the first mismatch. -/
def currentStreakLoop : List ℤ → ℤ → ℤ → ℕ
  | [], _, _ => 0
  | d :: rest, today, i =>
      if d = today - i then 1 + currentStreakLoop rest today (i + 1) else 0

/-- The `for i in range(1, len(sorted_days))` loop of `get_streaks`, carrying
`longest_streak` and `temp_streak`; the final `max` after the loop included. -/
def longestStreakLoop : ℤ → List ℤ → ℕ → ℕ → ℕ
  | _, [], longest, temp => max longest temp
  | prev, d :: rest, longest, temp =>
      if prev - d = 1 then longestStreakLoop d rest longest (temp + 1)
      else longestStreakLoop d rest (max longest temp) 1

/-- `longest_streak` as computed by `get_streaks`: both accumulators start at
1, so an empty day list yields `max 1 1 = 1` (the loop body never runs). -/
def longestStreak : List ℤ → ℕ
  | [] => 1
  | d :: rest => longestStreakLoop d rest 1 1

/-- `sorted(days_with_activity, reverse=True)`: deduplicate (the Python set)
and sort descending. -/
def sortedDaysDesc (days : List ℤ) : List ℤ :=
  (firstDedup days).mergeSort (fun a b => decide (b ≤ a))

/-- `get_streaks`, applied to the calendar days of the fetched activities
(`days = [dayOf start_time for each activity]`) and to `today`.  The function
is total: no input raises. -/
def get_streaks (starts : List ℤ) (today : ℤ) : StreakResponse :=
  let days := starts.map dayOf
  { current_streak := currentStreakLoop (sortedDaysDesc days) today 0
    longest_streak := longestStreak (sortedDaysDesc days)
    days_with_activity := (firstDedup days).length }

/-! ## Interruption cost model (`test_interruption_metrics.py`) -/

/-- `calculate_interruption_cost`: the `type_weights` dict lookup with default
1.0, applied to `interruption.get("type", "Other")`. -/
def type_weights (t : String) : ℚ :=
  if t = "Phone" then 12/10
  else if t = "Social Media" then 14/10
  else if t = "Noise" then 1
  else if t = "Other" then 11/10
  else 1

/-- `calculate_interruption_cost(interruption, is_early_focus)`. -/
def calculate_interruption_cost (i : Interruption) (is_early_focus : Bool) : ℚ :=
  let duration := i.duration_minutes.getD 5
  let type_weight := type_weights (i.type.getD "Other")
  let context_weight : ℚ := if is_early_focus then 13/10 else 1
  duration * type_weight * context_weight

/-- The claim's type-weight table, written from the spec sentence:
Phone 1.2, Social Media 1.4, Noise 1.0, Other 1.1, unknown types 1.0. -/
def claimTypeWeight (t : String) : ℚ :=
  if t = "Phone" then 12/10
  else if t = "Social Media" then 14/10
  else if t = "Noise" then 1
  else if t = "Other" then 11/10
  else 1

/-- The claim's context weight: 1.3 during an early-focus session, else 1.0. -/
def claimContextWeight (f : Bool) : ℚ := if f then 13/10 else 1

/-- `calculate_recovery_time(interruption_time, next_focus_time)`: `None` when
`next_focus_time` is absent or at/before the interruption; otherwise
`int(delta.total_seconds() / 60)` — truncation toward zero, which on the
positive delta is the floor. -/
def calculate_recovery_time (interruption_time : ℤ) (next_focus_time : Option ℤ) :
    Option ℤ :=
  match next_focus_time with
  | none => none
  | some nf =>
      if nf ≤ interruption_time then none
      else some ⌊((nf - interruption_time : ℤ) : ℚ) / 60⌋

/-! ## Theorems: C1 (streaks on empty input), C7 (interruption cost),
C8 (recovery time) -/

/-- C1, counterexample: on an empty date set `get_streaks` does NOT return
`{current_streak: 0, longest_streak: 0, days_with_activity: 0}`: the
`longest_streak` accumulator is initialised to 1 and the final
`max(longest_streak, temp_streak)` keeps it at 1 even though no day exists. -/
theorem get_streaks_empty_counterexample :
    get_streaks [] 0 = ⟨0, 1, 0⟩ ∧ get_streaks [] 0 ≠ ⟨0, 0, 0⟩ := by
  have h : get_streaks [] 0 = ⟨0, 1, 0⟩ := by
    simp [get_streaks, sortedDaysDesc, currentStreakLoop, longestStreak, firstDedup, firstDedupAux]
  refine ⟨h, ?_⟩
  rw [h]
  decide

/-- C1, amended: streak computation on an empty date set raises no exception
(the embedding is a total function) and returns `{current_streak: 0,
longest_streak: 1, days_with_activity: 0}` — the longest streak is 1, not 0,
for every value of `today`. -/
theorem get_streaks_empty (today : ℤ) : get_streaks [] today = ⟨0, 1, 0⟩ := by
  simp [get_streaks, sortedDaysDesc, currentStreakLoop, longestStreak, firstDedup, firstDedupAux]

/-- C7: for every interruption carrying a type string, the cost equals
`duration_minutes` (default 5 when absent) × type-weight × context-weight,
with the type-weight table of the claim (Phone 1.2, Social Media 1.4,
Noise 1.0, Other 1.1, unknown 1.0) and context-weight 1.3 under early focus
else 1.0; in particular duration 15, Social Media, early focus gives
15×1.4×1.3 = 27.3. -/
theorem interruption_cost_spec (tm : ℤ) (dur : Option ℚ) (t : String) (f : Bool) :
    calculate_interruption_cost ⟨tm, dur, some t⟩ f
        = dur.getD 5 * claimTypeWeight t * claimContextWeight f ∧
      calculate_interruption_cost ⟨0, some 15, some "Social Media"⟩ true = 273/10 := by
  constructor
  · simp [calculate_interruption_cost, type_weights, claimTypeWeight, claimContextWeight]
  · norm_num [calculate_interruption_cost, type_weights]
    all_goals decide

/-- C8: recovery time is the floor of the minute difference when the next
focus time is strictly later, and the `None` sentinel (never an exception:
the embedding is total) when the next focus time is absent or at/before the
interruption; in particular `+30min → 30` and `-10min → None`. -/
theorem recovery_time_spec (t nf : ℤ) :
    calculate_recovery_time t none = none ∧
      calculate_recovery_time t (some nf)
        = (if nf ≤ t then none else some ⌊((nf : ℚ) - (t : ℚ)) / 60⌋) ∧
      calculate_recovery_time t (some (t + 1800)) = some 30 ∧
      calculate_recovery_time t (some (t - 600)) = none := by
  refine ⟨rfl, ?_, ?_, ?_⟩
  · have h : calculate_recovery_time t (some nf)
        = if nf ≤ t then none else some ⌊((nf - t : ℤ) : ℚ) / 60⌋ := rfl
    rw [h]
    by_cases hle : nf ≤ t
    · rw [if_pos hle, if_pos hle]
    · rw [if_neg hle, if_neg hle]
      push_cast
      rfl
  · have h : calculate_recovery_time t (some (t + 1800))
        = if t + 1800 ≤ t then none
          else some ⌊((t + 1800 - t : ℤ) : ℚ) / 60⌋ := rfl
    rw [h, if_neg (by omega)]
    have h30 : ((t + 1800 - t : ℤ) : ℚ) / 60 = ((30 : ℤ) : ℚ) := by
      push_cast
      ring
    rw [h30, Int.floor_intCast]
  · have h : calculate_recovery_time t (some (t - 600))
        = if t - 600 ≤ t then none
          else some ⌊((t - 600 - t : ℤ) : ℚ) / 60⌋ := rfl
    rw [h, if_pos (by omega)]

/-! ## Category aggregator (`analytics.py`, `get_category_breakdown`) -/

/-- The response model `CategoryBreakdown`. -/
structure CategoryBreakdown where
  category : String
  total_minutes : ℚ
  session_count : ℕ
  avg_duration : ℚ
  percentage : ℚ
  deriving DecidableEq, Repr

/-- One step of the grouping loop: `category_data[category]` is created with
zeros on first sight (an insertion-ordered dict entry) and then its
`total_minutes` and `session_count` are incremented. -/
def addToGroups : List (String × ℚ × ℕ) → String → ℚ → List (String × ℚ × ℕ)
  | [], c, d => [(c, d, 1)]
  | g :: rest, c, d =>
      if g.1 = c then (g.1, g.2.1 + d, g.2.2 + 1) :: rest
      else g :: addToGroups rest c d

/-- `category_data` after the grouping loop of `get_category_breakdown`. -/
def categoryGroups (acts : List Activity) : List (String × ℚ × ℕ) :=
  acts.foldl (fun gs a => addToGroups gs a.category (duration_minutes a)) []

/-- The running `total_minutes` accumulator: sum of all durations. -/
def total_minutes (acts : List Activity) : ℚ := (acts.map duration_minutes).sum

/-- The `breakdown` list before its final sort: one record per category with
the guarded average and percentage, all rounded to 1 decimal place. -/
def breakdownUnsorted (acts : List Activity) : List CategoryBreakdown :=
  (categoryGroups acts).map (fun g =>
    { category := g.1
      total_minutes := round1 g.2.1
      session_count := g.2.2
      avg_duration := round1 (if 0 < g.2.2 then g.2.1 / (g.2.2 : ℚ) else 0)
      percentage :=
        round1 (if 0 < total_minutes acts then g.2.1 / total_minutes acts * 100 else 0) })

/-- `get_category_breakdown`: the breakdown sorted descending by (rounded)
`total_minutes`; Python `list.sort(key=..., reverse=True)` is stable. -/
def get_category_breakdown (acts : List Activity) : List CategoryBreakdown :=
  (breakdownUnsorted acts).mergeSort (fun x y => decide (y.total_minutes ≤ x.total_minutes))

/-- Sum of the group totals of a `category_data` association list. -/
def sumTotals (gs : List (String × ℚ × ℕ)) : ℚ := (gs.map (fun g => g.2.1)).sum

theorem sumTotals_addToGroups (gs : List (String × ℚ × ℕ)) (c : String) (d : ℚ) :
    sumTotals (addToGroups gs c d) = sumTotals gs + d := by
  induction gs with
  | nil => simp [addToGroups, sumTotals]
  | cons g rest ih =>
      by_cases h : g.1 = c
      · simp only [addToGroups, if_pos h, sumTotals, List.map_cons, List.sum_cons]
        ring
      · simp only [addToGroups, if_neg h, sumTotals, List.map_cons, List.sum_cons] at ih ⊢
        rw [ih]
        ring

theorem sumTotals_foldl (acts : List Activity) (init : List (String × ℚ × ℕ)) :
    sumTotals (acts.foldl (fun gs a => addToGroups gs a.category (duration_minutes a)) init)
      = sumTotals init + (acts.map duration_minutes).sum := by
  induction acts generalizing init with
  | nil => simp
  | cons a rest ih =>
      simp only [List.foldl_cons, List.map_cons, List.sum_cons, ih, sumTotals_addToGroups]
      ring

/-- The group totals of `category_data` add up to the running total. -/
theorem sumTotals_categoryGroups (acts : List Activity) :
    sumTotals (categoryGroups acts) = total_minutes acts := by
  simpa [categoryGroups, total_minutes, sumTotals] using sumTotals_foldl acts []

/-- Rounding to one decimal place moves a value by at most 1/20. -/
theorem abs_round1_sub (x : ℚ) : |round1 x - x| ≤ 1/20 := by
  have h : |(round (10 * x) : ℚ) - 10 * x| ≤ 1 / 2 := by
    rw [abs_sub_comm]
    exact abs_sub_round (10 * x)
  have h10 : round1 x - x = ((round (10 * x) : ℚ) - 10 * x) / 10 := by
    rw [round1]
    ring
  rw [h10, abs_div]
  rw [show |(10 : ℚ)| = 10 by norm_num]
  linarith

theorem abs_sum_sub_sum_le {α : Type} (l : List α) (f g : α → ℚ) :
    |(l.map f).sum - (l.map g).sum| ≤ (l.map fun x => |f x - g x|).sum := by
  induction l with
  | nil => simp
  | cons x rest ih =>
      simp only [List.map_cons, List.sum_cons]
      calc |f x + (rest.map f).sum - (g x + (rest.map g).sum)|
          = |(f x - g x) + ((rest.map f).sum - (rest.map g).sum)| := by ring_nf
        _ ≤ |f x - g x| + |(rest.map f).sum - (rest.map g).sum| := abs_add _ _
        _ ≤ |f x - g x| + (rest.map fun x => |f x - g x|).sum := by linarith

theorem sum_map_div_mul (gs : List (String × ℚ × ℕ)) (T : ℚ) :
    (gs.map fun g => g.2.1 / T * 100).sum = sumTotals gs / T * 100 := by
  induction gs with
  | nil => simp [sumTotals]
  | cons g rest ih =>
      rw [List.map_cons, List.sum_cons, ih, sumTotals, sumTotals, List.map_cons, List.sum_cons]
      ring

/-- Five activities in five categories whose durations are 2006, 2006, 2006,
2006 and 1976 minutes: the exact percentages 20.06 (×4) and 19.76 all round
up to one decimal place, so the emitted percentages sum to 100.2. -/
def actsC4 : List Activity :=
  [⟨"A", 0, 120360⟩, ⟨"B", 0, 120360⟩, ⟨"C", 0, 120360⟩,
   ⟨"D", 0, 120360⟩, ⟨"E", 0, 118560⟩]

/-- C4, counterexample: for the non-empty input `actsC4` the emitted
per-category percentages sum to 100.2, which is NOT within 0.1 of 100. -/
theorem category_percentage_sum_counterexample :
    ¬ |((get_category_breakdown actsC4).map (fun r => r.percentage)).sum - 100|
        ≤ (1/10 : ℚ) := by
  have hsort : ((get_category_breakdown actsC4).map (fun r => r.percentage)).sum
      = ((breakdownUnsorted actsC4).map (fun r => r.percentage)).sum :=
    ((List.mergeSort_perm (breakdownUnsorted actsC4) _).map _).sum_eq
  have hval : ((breakdownUnsorted actsC4).map (fun r => r.percentage)).sum = 501/5 := by
    simp [breakdownUnsorted, categoryGroups, addToGroups, total_minutes,
      duration_minutes, actsC4, round1, round_eq]
    norm_num
  rw [hsort, hval]
  norm_num [abs_le]

/-- C4, amended: for every non-empty input whose activities all have positive
duration, the emitted per-category percentages (each rounded to 1 decimal
place) sum to 100 to within 0.05 per emitted category — the per-item rounding
bound; the fixed tolerance 0.1 of the original claim fails (see the
counterexample) once more than two categories round the same way. -/
theorem category_percentage_sum (acts : List Activity) (hne : acts ≠ [])
    (hpos : ∀ a ∈ acts, 0 < duration_minutes a) :
    |((get_category_breakdown acts).map (fun r => r.percentage)).sum - 100|
      ≤ ((categoryGroups acts).length : ℚ) * (1/20) := by
  have hT : 0 < total_minutes acts := by
    refine List.sum_pos _ ?_ ?_
    · intro x hx
      obtain ⟨a, ha, rfl⟩ := List.mem_map.1 hx
      exact hpos a ha
    · simpa using hne
  have hsort : ((get_category_breakdown acts).map (fun r => r.percentage)).sum
      = ((breakdownUnsorted acts).map (fun r => r.percentage)).sum :=
    ((List.mergeSort_perm (breakdownUnsorted acts) _).map _).sum_eq
  have hmap : (breakdownUnsorted acts).map (fun r => r.percentage)
      = (categoryGroups acts).map
          (fun g => round1 (g.2.1 / total_minutes acts * 100)) := by
    rw [breakdownUnsorted, List.map_map]
    refine List.map_congr_left ?_
    intro g hg
    simp [if_pos hT]
  have hsum : ((categoryGroups acts).map
      (fun g => g.2.1 / total_minutes acts * 100)).sum = 100 := by
    rw [sum_map_div_mul, sumTotals_categoryGroups]
    field_simp
  calc |((get_category_breakdown acts).map (fun r => r.percentage)).sum - 100|
      = |((categoryGroups acts).map
            (fun g => round1 (g.2.1 / total_minutes acts * 100))).sum
          - ((categoryGroups acts).map
            (fun g => g.2.1 / total_minutes acts * 100)).sum| := by
        rw [hsort, hmap, hsum]
    _ ≤ ((categoryGroups acts).map
          (fun g => |round1 (g.2.1 / total_minutes acts * 100)
            - g.2.1 / total_minutes acts * 100|)).sum := abs_sum_sub_sum_le _ _ _
    _ ≤ ((categoryGroups acts).length : ℚ) * (1/20) := by
        have hb : ∀ x ∈ (categoryGroups acts).map
            (fun g => |round1 (g.2.1 / total_minutes acts * 100)
              - g.2.1 / total_minutes acts * 100|), x ≤ (1/20 : ℚ) := by
          intro x hx
          obtain ⟨g, hg, rfl⟩ := List.mem_map.1 hx
          exact abs_round1_sub _
        have h2 := List.sum_le_card_nsmul _ _ hb
        simpa [nsmul_eq_mul] using h2

/-- C4's amended statement instantiated at a concrete one-activity input. -/
theorem category_percentage_sum_witness :
    (([(⟨"Work", 0, 600⟩ : Activity)] : List Activity) ≠ [] ∧
      ∀ a ∈ [(⟨"Work", 0, 600⟩ : Activity)], 0 < duration_minutes a) ∧
      |((get_category_breakdown [(⟨"Work", 0, 600⟩ : Activity)]).map
          (fun r => r.percentage)).sum - 100|
        ≤ ((categoryGroups [(⟨"Work", 0, 600⟩ : Activity)]).length : ℚ) * (1/20) :=
  ⟨⟨by decide, by norm_num [duration_minutes]⟩,
    category_percentage_sum [⟨"Work", 0, 600⟩] (by decide)
      (by norm_num [duration_minutes])⟩

/-! ## Insight generator (`services/insights.py`, `generate_insights`)

`daily_focus` / `hour_focus` are insertion-ordered `defaultdict`s; they are
rendered as the first-encounter list of keys (`dedup`) paired with the
accumulated per-key sums, which is exactly the key/value sequence the Python
dict iterates in. -/

/-- The focus category list `["Study", "Coding", "Work", "Reading"]`. -/
def focusCategories : List String := ["Study", "Coding", "Work", "Reading"]

/-- `focus_activities`. -/
def focusActivities (acts : List Activity) : List Activity :=
  acts.filter (fun a => decide (a.category ∈ focusCategories))

/-- `rest_activities`. -/
def restActivities (acts : List Activity) : List Activity :=
  acts.filter (fun a => decide (a.category = "Rest"))

/-- The keys of `daily_focus`, in first-encounter order. -/
def dailyFocusDays (acts : List Activity) : List ℤ :=
  firstDedup ((focusActivities acts).map (fun a => dayOf a.start_time))

/-- The values of `daily_focus` (`list(daily_focus.values())`), in key order:
for each day, the accumulated focus minutes of that day. -/
def dailyFocusValues (acts : List Activity) : List ℚ :=
  (dailyFocusDays acts).map (fun d =>
    (((focusActivities acts).filter (fun a => decide (dayOf a.start_time = d))).map
      duration_minutes).sum)

/-- `avg_focus = sum(values) / len(values)`. -/
def listMean (l : List ℚ) : ℚ := l.sum / l.length

/-- `variance = sum((v - avg)**2 for v in values) / len(values)` —
the population variance. -/
def popVariance (l : List ℚ) : ℚ :=
  (l.map (fun v => (v - listMean l) ^ 2)).sum / l.length

/-- The consistency score of `generate_insights` (before its final 2-decimal
rounding): 0.5 when at most one distinct day carries focus activities,
otherwise `max(0, 1 - std_dev / (avg_focus + 1))` with
`std_dev = variance ** 0.5`. -/
noncomputable def consistency_score (acts : List Activity) : ℝ :=
  if 1 < (dailyFocusValues acts).length then
    max 0 (1 - Real.sqrt ((popVariance (dailyFocusValues acts) : ℚ) : ℝ)
      / (((listMean (dailyFocusValues acts) : ℚ) : ℝ) + 1))
  else 1/2

/-- `max(pairs, key=lambda x: x[1])`: Python `max` keeps the first maximal
element, replacing the running best only on a strictly greater value. -/
def firstArgmax {β : Type} [LinearOrder β] : List (ℤ × β) → Option (ℤ × β)
  | [] => none
  | p :: rest => some (rest.foldl (fun best q => if best.2 < q.2 then q else best) p)

/-- `hour_focus` as its key/value sequence. -/
def hourFocusPairs (acts : List Activity) : List (ℤ × ℚ) :=
  (firstDedup ((focusActivities acts).map (fun a => hourOf a.start_time))).map
    (fun h => (h, (((focusActivities acts).filter
      (fun a => decide (hourOf a.start_time = h))).map duration_minutes).sum))

/-- `hour_interruptions` as its key/value sequence. -/
def hourInterruptionPairs (ints : List Interruption) : List (ℤ × ℕ) :=
  (firstDedup (ints.map (fun i => hourOf i.time))).map
    (fun h => (h, (ints.filter (fun i => decide (hourOf i.time = h))).length))

/-- `f"{h:02d}"` for an hour value. -/
def pad2 (h : ℤ) : String := if h < 10 then "0" ++ toString h else toString h

/-- `total_focus`. -/
def total_focus (acts : List Activity) : ℚ :=
  ((focusActivities acts).map duration_minutes).sum

/-- `total_rest`. -/
def total_rest (acts : List Activity) : ℚ :=
  ((restActivities acts).map duration_minutes).sum

/-- `balance_ratio = total_focus / total_time if total_time > 0 else 0.5`. -/
def balance_ratio (acts : List Activity) : ℚ :=
  if 0 < total_focus acts + total_rest acts then
    total_focus acts / (total_focus acts + total_rest acts)
  else 1/2

/-- Python `round(x, 2)` on the real-valued score. -/
noncomputable def round2R (x : ℝ) : ℝ := ((round (100 * x) : ℤ) : ℝ) / 100

/-- The `suggestions` list built by the three rule blocks, in order. -/
noncomputable def suggestionList (acts : List Activity) (ints : List Interruption) :
    List String :=
  (if 8/10 < balance_ratio acts then
      ["Consider adding more rest time to your schedule."]
    else if balance_ratio acts < 3/10 then
      ["You might benefit from more focused work blocks."]
    else [])
  ++ (if hourInterruptionPairs ints ≠ [] ∧
        3 < ((hourInterruptionPairs ints).map (fun p => p.2)).foldr max 0 then
      ["Try scheduling deep work during hours with fewer interruptions."]
    else [])
  ++ (if consistency_score acts < 1/2 then
      ["A more consistent schedule might help you find better focus."]
    else [])

/-- The output record of `generate_insights`. -/
structure Insights where
  peak_focus_window : String
  distraction_hotspot : String
  consistency_score : ℝ
  balance_ratio : ℚ
  suggestion : String

/-- `generate_insights(activities, interruptions)`. -/
noncomputable def generate_insights (activities : List Activity)
    (interruptions : List Interruption) : Insights :=
  if activities = [] then
    { peak_focus_window := "Not enough data yet"
      distraction_hotspot := "Not enough data yet"
      consistency_score := 0
      balance_ratio := 1/2
      suggestion := "Start logging your activities to see insights." }
  else
    let peak_window :=
      match firstArgmax (hourFocusPairs activities) with
      | some p => pad2 p.1 ++ ":00 - " ++ pad2 ((p.1 + 1) % 24) ++ ":00"
      | none => "No focus time logged yet"
    let hotspot :=
      match firstArgmax (hourInterruptionPairs interruptions) with
      | some p => "Most interruptions around " ++ pad2 p.1 ++ ":00"
      | none => "No interruptions logged"
    let suggestions :=
      let s := suggestionList activities interruptions
      if s = [] then ["Keep tracking to discover more patterns."] else s
    { peak_focus_window := "Your focus is strongest between " ++ peak_window
      distraction_hotspot := hotspot
      consistency_score := round2R (consistency_score activities)
      balance_ratio := round2 (balance_ratio activities)
      suggestion :=
        if suggestions ≠ [] then String.intercalate " " suggestions
        else "Keep logging your activities." }

/-! ## Theorems: C9 (empty-activities short circuit), C3 (consistency score
formula and range), C5 (time-shift invariance) -/

/-- C9: with zero activities, `generate_insights` returns the fixed
"not enough data" record — the documented literal in every field — for EVERY
interruptions list, so the result never depends on the interruptions. -/
theorem generate_insights_empty (ints : List Interruption) :
    generate_insights [] ints =
      { peak_focus_window := "Not enough data yet"
        distraction_hotspot := "Not enough data yet"
        consistency_score := 0
        balance_ratio := 1/2
        suggestion := "Start logging your activities to see insights." } := by
  rw [generate_insights]
  simp

theorem duration_minutes_nonneg {a : Activity} (h : a.start_time ≤ a.end_time) :
    0 ≤ duration_minutes a := by
  rw [duration_minutes]
  apply div_nonneg _ (by norm_num)
  exact_mod_cast sub_nonneg.2 h

theorem dailyFocusValues_nonneg (acts : List Activity)
    (h : ∀ a ∈ acts, a.start_time ≤ a.end_time) :
    ∀ v ∈ dailyFocusValues acts, 0 ≤ v := by
  intro v hv
  rw [dailyFocusValues] at hv
  obtain ⟨d, hd, rfl⟩ := List.mem_map.1 hv
  apply List.sum_nonneg
  intro x hx
  obtain ⟨a, ha, rfl⟩ := List.mem_map.1 hx
  have ha2 : a ∈ acts := List.mem_of_mem_filter (List.mem_of_mem_filter ha)
  exact duration_minutes_nonneg (h a ha2)

theorem listMean_nonneg {l : List ℚ} (h : ∀ v ∈ l, 0 ≤ v) : 0 ≤ listMean l := by
  rw [listMean]
  exact div_nonneg (List.sum_nonneg h) (by positivity)

/-- C3, amended: the consistency score is 0.5 when fewer than 2 distinct
calendar days carry focus activities and otherwise equals
`max(0, 1 - popStdDev/(mean + 1))` over the daily focus minutes; for
activities respecting `start_time ≤ end_time` the score lies in the CLOSED
interval `[0, 1]` — it attains 1 whenever the daily totals are all equal
(population standard deviation 0), so the original half-open `[0, 1)` fails
(see the counterexample). -/
theorem consistency_score_spec (acts : List Activity)
    (h : ∀ a ∈ acts, a.start_time ≤ a.end_time) :
    ((dailyFocusValues acts).length ≤ 1 → consistency_score acts = 1/2) ∧
      (1 < (dailyFocusValues acts).length →
        consistency_score acts
          = max 0 (1 - Real.sqrt ((popVariance (dailyFocusValues acts) : ℚ) : ℝ)
              / (((listMean (dailyFocusValues acts) : ℚ) : ℝ) + 1))) ∧
      0 ≤ consistency_score acts ∧ consistency_score acts ≤ 1 := by
  have hnn := dailyFocusValues_nonneg acts h
  refine ⟨fun hlen => ?_, fun hlen => ?_, ?_, ?_⟩
  · rw [consistency_score, if_neg (by omega)]
  · rw [consistency_score, if_pos hlen]
  · rw [consistency_score]
    split
    · exact le_max_left 0 _
    · norm_num
  · rw [consistency_score]
    split
    · apply max_le (by norm_num)
      have hm : (0:ℝ) ≤ ((listMean (dailyFocusValues acts) : ℚ) : ℝ) := by
        exact_mod_cast listMean_nonneg hnn
      have hs : (0:ℝ) ≤ Real.sqrt ((popVariance (dailyFocusValues acts) : ℚ) : ℝ) :=
        Real.sqrt_nonneg _
      have hd : (0:ℝ) ≤ Real.sqrt ((popVariance (dailyFocusValues acts) : ℚ) : ℝ)
          / (((listMean (dailyFocusValues acts) : ℚ) : ℝ) + 1) :=
        div_nonneg hs (by linarith)
      linarith
    · norm_num

/-- Two one-hour Study sessions with equal daily totals on two consecutive
days: the population standard deviation is 0 and the score is exactly 1. -/
def actsC3 : List Activity := [⟨"Study", 0, 3600⟩, ⟨"Study", 86400, 90000⟩]

/-- C3, counterexample: the consistency score REACHES 1 (on `actsC3` it
equals 1), refuting the claimed half-open range `[0, 1)`. -/
theorem consistency_score_counterexample :
    consistency_score actsC3 = 1 ∧ ¬ consistency_score actsC3 < 1 := by
  have hv : dailyFocusValues actsC3 = [60, 60] := by
    norm_num [dailyFocusValues, dailyFocusDays, focusActivities, actsC3,
      focusCategories, dayOf, duration_minutes, firstDedup, firstDedupAux,
      List.filter]
  have hvar : popVariance ([60, 60] : List ℚ) = 0 := by
    norm_num [popVariance, listMean]
  have hmean : listMean ([60, 60] : List ℚ) = 60 := by
    norm_num [listMean]
  have h1 : consistency_score actsC3 = 1 := by
    rw [consistency_score, hv, if_pos (by norm_num), hvar, hmean]
    push_cast
    rw [Real.sqrt_zero]
    norm_num
  exact ⟨h1, by rw [h1]; exact lt_irrefl 1⟩

/-- C3's amended statement instantiated at `actsC3`. -/
theorem consistency_score_spec_witness :
    (∀ a ∈ actsC3, a.start_time ≤ a.end_time) ∧
      (((dailyFocusValues actsC3).length ≤ 1 → consistency_score actsC3 = 1/2) ∧
        (1 < (dailyFocusValues actsC3).length →
          consistency_score actsC3
            = max 0 (1 - Real.sqrt ((popVariance (dailyFocusValues actsC3) : ℚ) : ℝ)
                / (((listMean (dailyFocusValues actsC3) : ℚ) : ℝ) + 1))) ∧
        0 ≤ consistency_score actsC3 ∧ consistency_score actsC3 ≤ 1) :=
  ⟨by decide, consistency_score_spec actsC3 (by decide)⟩

/-- Shift every activity's `start_time` and `end_time` by `off` seconds. -/
def shiftActivities (off : ℤ) (acts : List Activity) : List Activity :=
  acts.map (fun a => ⟨a.category, a.start_time + off, a.end_time + off⟩)

theorem focusActivities_shift (off : ℤ) (acts : List Activity) :
    focusActivities (shiftActivities off acts)
      = shiftActivities off (focusActivities acts) := by
  rw [focusActivities, focusActivities, shiftActivities, shiftActivities,
    List.filter_map]
  rfl

theorem duration_minutes_shift (off : ℤ) (a : Activity) :
    duration_minutes ⟨a.category, a.start_time + off, a.end_time + off⟩
      = duration_minutes a := by
  rw [duration_minutes, duration_minutes]
  congr 1
  push_cast
  ring

theorem dayOf_shift (t k : ℤ) : dayOf (t + k * 86400) = dayOf t + k :=
  Int.add_mul_ediv_right t k (by norm_num)

theorem firstDedupAux_map_add (k : ℤ) (l : List ℤ) :
    ∀ seen : List ℤ,
      firstDedupAux (seen.map (· + k)) (l.map (· + k))
        = (firstDedupAux seen l).map (· + k) := by
  induction l with
  | nil => intro seen; rfl
  | cons x xs ih =>
      intro seen
      have hmem : ((x + k) ∈ seen.map (· + k)) ↔ x ∈ seen := by
        constructor
        · intro hc
          obtain ⟨y, hy, hyk⟩ := List.mem_map.1 hc
          have hxy : y = x := by omega
          rwa [hxy] at hy
        · intro hx
          exact List.mem_map.2 ⟨x, hx, rfl⟩
      simp only [List.map_cons, firstDedupAux]
      by_cases hx : x ∈ seen
      · rw [if_pos (hmem.2 hx), if_pos hx, ih seen]
      · rw [if_neg (fun hc => hx (hmem.1 hc)), if_neg hx, List.map_cons]
        congr 1
        have h2 := ih (x :: seen)
        simpa using h2

theorem firstDedup_map_add (k : ℤ) (l : List ℤ) :
    firstDedup (l.map (· + k)) = (firstDedup l).map (· + k) := by
  have h := firstDedupAux_map_add k l []
  simpa [firstDedup] using h

theorem dailyFocusDays_shift (acts : List Activity) (k : ℤ) :
    dailyFocusDays (shiftActivities (k * 86400) acts)
      = (dailyFocusDays acts).map (· + k) := by
  rw [dailyFocusDays, dailyFocusDays, focusActivities_shift, shiftActivities,
    List.map_map]
  have hfun : ((fun a : Activity => dayOf a.start_time) ∘
        fun a : Activity => ⟨a.category, a.start_time + k * 86400,
          a.end_time + k * 86400⟩)
      = (· + k) ∘ (fun a : Activity => dayOf a.start_time) := by
    funext a
    exact dayOf_shift a.start_time k
  rw [hfun, ← List.map_map, firstDedup_map_add]

theorem dailyFocusValues_shift (acts : List Activity) (k : ℤ) :
    dailyFocusValues (shiftActivities (k * 86400) acts)
      = dailyFocusValues acts := by
  rw [dailyFocusValues, dailyFocusValues, dailyFocusDays_shift, List.map_map]
  refine List.map_congr_left ?_
  intro d hd
  simp only [Function.comp_apply]
  rw [focusActivities_shift, shiftActivities, List.filter_map, List.map_map]
  have hpred : ∀ a ∈ focusActivities acts,
      ((fun a : Activity => decide (dayOf a.start_time = d + k)) ∘
        (fun a : Activity => (⟨a.category, a.start_time + k * 86400,
          a.end_time + k * 86400⟩ : Activity))) a
        = (fun a : Activity => decide (dayOf a.start_time = d)) a := by
    intro a _
    simp only [Function.comp_apply, decide_eq_decide]
    rw [dayOf_shift]
    omega
  rw [List.filter_congr hpred]
  refine congrArg List.sum (List.map_congr_left ?_)
  intro a _
  exact duration_minutes_shift (k * 86400) a

/-- C5, amended: shifting every activity's `start_time` and `end_time` by the
same WHOLE-DAY offset (`k` days, i.e. `k * 86400` seconds) leaves the
consistency score unchanged.  For offsets that are not a multiple of a day
the claim fails: crossing a midnight boundary re-buckets the days (see the
counterexample). -/
theorem consistency_score_shift_invariant (acts : List Activity) (k : ℤ) :
    consistency_score (shiftActivities (k * 86400) acts)
      = consistency_score acts := by
  rw [consistency_score, consistency_score, dailyFocusValues_shift]

/-- Two one-hour Study sessions on the same calendar day, at 01:00 and at
20:00: a 12-hour shift moves the second one past midnight. -/
def actsC5 : List Activity := [⟨"Study", 3600, 7200⟩, ⟨"Study", 72000, 75600⟩]

/-- C5, counterexample: the uniform 12-hour shift (43200 s) changes the
consistency score of `actsC5` from 0.5 (one bucketed day) to 1 (two days with
equal totals), so the score is NOT invariant under arbitrary constant
offsets. -/
theorem consistency_score_shift_counterexample :
    consistency_score (shiftActivities 43200 actsC5) ≠ consistency_score actsC5 := by
  have h1 : consistency_score actsC5 = 1/2 := by
    have hv : dailyFocusValues actsC5 = [120] := by
      norm_num [dailyFocusValues, dailyFocusDays, focusActivities, actsC5,
        focusCategories, dayOf, duration_minutes, firstDedup, firstDedupAux,
        List.filter]
    rw [consistency_score, hv, if_neg (by norm_num)]
  have h2 : consistency_score (shiftActivities 43200 actsC5) = 1 := by
    have hv : dailyFocusValues (shiftActivities 43200 actsC5) = [60, 60] := by
      norm_num [dailyFocusValues, dailyFocusDays, focusActivities, actsC5,
        focusCategories, dayOf, duration_minutes, firstDedup, firstDedupAux,
        List.filter, shiftActivities]
    have hvar : popVariance ([60, 60] : List ℚ) = 0 := by
      norm_num [popVariance, listMean]
    have hmean : listMean ([60, 60] : List ℚ) = 60 := by
      norm_num [listMean]
    rw [consistency_score, hv, if_pos (by norm_num), hvar, hmean]
    push_cast
    rw [Real.sqrt_zero]
    norm_num
  rw [h1, h2]
  norm_num

/-! ## Cross-domain correlations (`routers/cross_domain.py`)

`daily_data` is an insertion-ordered Python dict keyed by ISO date string;
it is modelled as an association list with distinct keys (day indices).
Assignment to an existing key keeps its position. -/

/-- `daily_data[d] = v`: overwrite when present (keeping the key's position),
append otherwise. -/
def setAssoc {β : Type} (d : ℤ) (v : β) : List (ℤ × β) → List (ℤ × β)
  | [] => [(d, v)]
  | p :: rest => if p.1 = d then (d, v) :: rest else p :: setAssoc d v rest

/-- Mutate the bucket at key `d` when present (`if d in daily_data`);
no-op otherwise. -/
def updateAssoc {β : Type} (f : β → β) (d : ℤ) : List (ℤ × β) → List (ℤ × β)
  | [] => []
  | p :: rest => if p.1 = d then (p.1, f p.2) :: rest else p :: updateAssoc f d rest

/-- `if d not in daily_data: daily_data[d] = init` followed by a mutation of
`daily_data[d]`. -/
def upsertAssoc {β : Type} (init : β) (f : β → β) (d : ℤ) (l : List (ℤ × β)) :
    List (ℤ × β) :=
  if d ∈ l.map Prod.fst then updateAssoc f d l else l ++ [(d, f init)]

/-- The per-day bucket of `get_time_money_correlation`. -/
structure TMBucket where
  activity_count : ℕ
  total_hours : ℚ
  interruption_count : ℕ
  daily_expenses : ℚ
  daily_income : ℚ
  deriving DecidableEq, Repr

/-- The zero-initialised `daily_data` entry of `get_time_money_correlation`. -/
def tmInit : TMBucket := ⟨0, 0, 0, 0, 0⟩

/-- `daily_data` after the activity loop of `get_time_money_correlation`. -/
def tmAfterActivities (acts : List Activity) : List (ℤ × TMBucket) :=
  acts.foldl
    (fun m a => upsertAssoc tmInit
      (fun b => { b with activity_count := b.activity_count + 1,
                         total_hours := b.total_hours + duration_hours a })
      (dayOf a.start_time) m)
    []

/-- `daily_data` after the interruption loop: interruptions only increment a
bucket that ALREADY exists (`if interruption_date in daily_data`). -/
def tmAfterInterruptions (ints : List Interruption) (m : List (ℤ × TMBucket)) :
    List (ℤ × TMBucket) :=
  ints.foldl
    (fun m i => updateAssoc
      (fun b => { b with interruption_count := b.interruption_count + 1 })
      (dayOf i.time) m)
    m

/-- The transaction mutation: add the amount to `daily_expenses` when the
type is `"expense"`, else to `daily_income`. -/
def tmTxnUpdate (t : Txn) (b : TMBucket) : TMBucket :=
  if t.type = "expense" then { b with daily_expenses := b.daily_expenses + t.amount }
  else { b with daily_income := b.daily_income + t.amount }

/-- `daily_data` after the transaction loop, which creates missing buckets. -/
def tmAfterTransactions (txns : List Txn) (m : List (ℤ × TMBucket)) :
    List (ℤ × TMBucket) :=
  txns.foldl (fun m t => upsertAssoc tmInit (tmTxnUpdate t) t.date m) m

/-- The response model `TimeMoneyCorrelation` (`correlation_score` defaults to
`None` and is never set). -/
structure TimeMoneyCorrelation where
  date : ℤ
  activity_count : ℕ
  total_hours : ℚ
  interruption_count : ℕ
  daily_expenses : ℚ
  daily_income : ℚ
  correlation_score : Option ℚ
  deriving DecidableEq, Repr

/-- `get_time_money_correlation`: activities, then interruptions, then
transactions; `sorted(daily_data.items())` ascending by date. -/
def get_time_money_correlation (acts : List Activity) (ints : List Interruption)
    (txns : List Txn) : List TimeMoneyCorrelation :=
  let m := tmAfterTransactions txns (tmAfterInterruptions ints (tmAfterActivities acts))
  (m.mergeSort (fun p q => decide (p.1 ≤ q.1))).map
    (fun p => { date := p.1
                activity_count := p.2.activity_count
                total_hours := round2 p.2.total_hours
                interruption_count := p.2.interruption_count
                daily_expenses := round2 p.2.daily_expenses
                daily_income := round2 p.2.daily_income
                correlation_score := none })

/-- The per-day bucket of `get_energy_spending_correlation`. -/
structure ESBucket where
  energy_level : ℤ
  stress_level : ℤ
  daily_expenses : ℚ
  expense_count : ℕ
  deriving DecidableEq, Repr

/-- `daily_data` after the energy-log loop: each log ASSIGNS its date's bucket
(a second log on the same date would overwrite, keeping one bucket). -/
def esAfterLogs (logs : List EnergyLog) : List (ℤ × ESBucket) :=
  logs.foldl
    (fun m log => setAssoc log.date ⟨log.energy_level, log.stress_level, 0, 0⟩ m) []

/-- `daily_data` after the transaction loop of the energy-spending
correlation: dates with no energy log are skipped (`continue`), and only
expense transactions mutate a bucket. -/
def esAfterTransactions (txns : List Txn) (m : List (ℤ × ESBucket)) :
    List (ℤ × ESBucket) :=
  txns.foldl
    (fun m t =>
      if t.type = "expense" then
        updateAssoc
          (fun b => { b with daily_expenses := b.daily_expenses + t.amount,
                             expense_count := b.expense_count + 1 })
          t.date m
      else m)
    m

/-- The response model `EnergySpendingCorrelation`. -/
structure EnergySpendingCorrelation where
  date : ℤ
  energy_level : ℤ
  stress_level : ℤ
  daily_expenses : ℚ
  expense_count : ℕ
  correlation_score : Option ℚ
  deriving DecidableEq, Repr

/-- `get_energy_spending_correlation`: energy logs create the buckets,
transactions only update existing ones; output sorted ascending by date. -/
def get_energy_spending_correlation (logs : List EnergyLog) (txns : List Txn) :
    List EnergySpendingCorrelation :=
  let m := esAfterTransactions txns (esAfterLogs logs)
  (m.mergeSort (fun p q => decide (p.1 ≤ q.1))).map
    (fun p => { date := p.1
                energy_level := p.2.energy_level
                stress_level := p.2.stress_level
                daily_expenses := round2 p.2.daily_expenses
                expense_count := p.2.expense_count
                correlation_score := none })

/-! ### Association-list invariants -/

theorem mem_keys_setAssoc {β : Type} (d : ℤ) (v : β) (l : List (ℤ × β)) (x : ℤ) :
    x ∈ (setAssoc d v l).map Prod.fst ↔ x ∈ l.map Prod.fst ∨ x = d := by
  induction l with
  | nil => simp [setAssoc]
  | cons p rest ih =>
      by_cases hp : p.1 = d
      · simp only [setAssoc, if_pos hp, List.map_cons, List.mem_cons]
        rw [hp]
        tauto
      · simp only [setAssoc, if_neg hp, List.map_cons, List.mem_cons, ih]
        tauto

theorem nodup_keys_setAssoc {β : Type} (d : ℤ) (v : β) (l : List (ℤ × β))
    (h : (l.map Prod.fst).Nodup) : ((setAssoc d v l).map Prod.fst).Nodup := by
  induction l with
  | nil => simp [setAssoc]
  | cons p rest ih =>
      rw [List.map_cons, List.nodup_cons] at h
      by_cases hp : p.1 = d
      · simp only [setAssoc, if_pos hp, List.map_cons, List.nodup_cons]
        exact ⟨hp ▸ h.1, h.2⟩
      · simp only [setAssoc, if_neg hp, List.map_cons, List.nodup_cons]
        refine ⟨?_, ih h.2⟩
        rw [mem_keys_setAssoc]
        push_neg
        exact ⟨h.1, hp⟩

theorem keys_updateAssoc {β : Type} (f : β → β) (d : ℤ) (l : List (ℤ × β)) :
    (updateAssoc f d l).map Prod.fst = l.map Prod.fst := by
  induction l with
  | nil => rfl
  | cons p rest ih =>
      by_cases hp : p.1 = d
      · simp [updateAssoc, if_pos hp]
      · simp [updateAssoc, if_neg hp, ih]

theorem mem_keys_upsertAssoc {β : Type} (init : β) (f : β → β) (d : ℤ)
    (l : List (ℤ × β)) (x : ℤ) :
    x ∈ (upsertAssoc init f d l).map Prod.fst ↔ x ∈ l.map Prod.fst ∨ x = d := by
  rw [upsertAssoc]
  split
  · rename_i hd
    rw [keys_updateAssoc]
    constructor
    · exact Or.inl
    · rintro (h | rfl)
      · exact h
      · exact hd
  · simp [List.map_append]

theorem nodup_keys_upsertAssoc {β : Type} (init : β) (f : β → β) (d : ℤ)
    (l : List (ℤ × β)) (h : (l.map Prod.fst).Nodup) :
    ((upsertAssoc init f d l).map Prod.fst).Nodup := by
  rw [upsertAssoc]
  split
  · rwa [keys_updateAssoc]
  · rename_i hd
    rw [List.map_append, List.map_cons, List.map_nil, List.nodup_append]
    refine ⟨h, List.nodup_singleton d, ?_⟩
    intro a ha hb
    rw [List.mem_singleton] at hb
    subst hb
    exact hd ha

theorem updateAssoc_forall {β : Type} (P : ℤ × β → Prop) (f : β → β) (d : ℤ)
    (l : List (ℤ × β)) (hl : ∀ p ∈ l, P p)
    (hf : ∀ p ∈ l, P p → P (p.1, f p.2)) :
    ∀ p ∈ updateAssoc f d l, P p := by
  induction l with
  | nil => simp [updateAssoc]
  | cons q rest ih =>
      by_cases hq : q.1 = d
      · simp only [updateAssoc, if_pos hq]
        intro p hp
        rcases List.mem_cons.1 hp with rfl | hp2
        · exact hf q (List.mem_cons_self q rest) (hl q (List.mem_cons_self q rest))
        · exact hl p (List.mem_cons_of_mem q hp2)
      · simp only [updateAssoc, if_neg hq]
        intro p hp
        rcases List.mem_cons.1 hp with rfl | hp2
        · exact hl p (List.mem_cons_self p rest)
        · exact ih (fun r hr => hl r (List.mem_cons_of_mem q hr))
            (fun r hr hP => hf r (List.mem_cons_of_mem q hr) hP) p hp2

theorem upsertAssoc_forall {β : Type} (P : ℤ × β → Prop) (init : β) (f : β → β)
    (d : ℤ) (l : List (ℤ × β)) (hl : ∀ p ∈ l, P p)
    (hf : ∀ p ∈ l, P p → P (p.1, f p.2)) (hinit : P (d, f init)) :
    ∀ p ∈ upsertAssoc init f d l, P p := by
  rw [upsertAssoc]
  split
  · exact updateAssoc_forall P f d l hl hf
  · intro p hp
    rcases List.mem_append.1 hp with hp1 | hp2
    · exact hl p hp1
    · rw [List.mem_singleton] at hp2
      subst hp2
      exact hinit

theorem foldl_nodup_keys {β γ : Type} (step : List (ℤ × β) → γ → List (ℤ × β))
    (hstep : ∀ m a, (m.map Prod.fst).Nodup → ((step m a).map Prod.fst).Nodup)
    (l : List γ) : ∀ init, (init.map Prod.fst).Nodup →
      ((l.foldl step init).map Prod.fst).Nodup := by
  induction l with
  | nil => intro init h; exact h
  | cons a rest ih => intro init h; exact ih _ (hstep init a h)

theorem mem_keys_tmAfterActivities (acts : List Activity) (x : ℤ) :
    x ∈ (tmAfterActivities acts).map Prod.fst
      ↔ ∃ a ∈ acts, dayOf a.start_time = x := by
  have h : ∀ init : List (ℤ × TMBucket),
      x ∈ ((acts.foldl (fun m a => upsertAssoc tmInit
          (fun b => { b with activity_count := b.activity_count + 1,
                             total_hours := b.total_hours + duration_hours a })
          (dayOf a.start_time) m) init).map Prod.fst)
        ↔ x ∈ init.map Prod.fst ∨ ∃ a ∈ acts, dayOf a.start_time = x := by
    induction acts with
    | nil => intro init; simp
    | cons a rest ih =>
        intro init
        rw [List.foldl_cons, ih, mem_keys_upsertAssoc]
        constructor
        · rintro ((h1 | rfl) | ⟨b, hb, hd⟩)
          · exact Or.inl h1
          · exact Or.inr ⟨a, List.mem_cons_self a rest, rfl⟩
          · exact Or.inr ⟨b, List.mem_cons_of_mem a hb, hd⟩
        · rintro (h1 | ⟨b, hb, hd⟩)
          · exact Or.inl (Or.inl h1)
          · rcases List.mem_cons.1 hb with rfl | hb2
            · exact Or.inl (Or.inr hd.symm)
            · exact Or.inr ⟨b, hb2, hd⟩
  simpa using h []

theorem keys_tmAfterInterruptions (ints : List Interruption) :
    ∀ m : List (ℤ × TMBucket),
      (tmAfterInterruptions ints m).map Prod.fst = m.map Prod.fst := by
  induction ints with
  | nil => intro m; rfl
  | cons i rest ih =>
      intro m
      simp only [tmAfterInterruptions, List.foldl_cons] at ih ⊢
      rw [ih, keys_updateAssoc]

theorem mem_keys_tmAfterTransactions (txns : List Txn) (x : ℤ) :
    ∀ m : List (ℤ × TMBucket),
      x ∈ (tmAfterTransactions txns m).map Prod.fst
        ↔ x ∈ m.map Prod.fst ∨ ∃ t ∈ txns, t.date = x := by
  induction txns with
  | nil => intro m; simp [tmAfterTransactions]
  | cons t rest ih =>
      intro m
      simp only [tmAfterTransactions, List.foldl_cons] at ih ⊢
      rw [ih, mem_keys_upsertAssoc]
      constructor
      · rintro ((h1 | rfl) | ⟨u, hu, hd⟩)
        · exact Or.inl h1
        · exact Or.inr ⟨t, List.mem_cons_self t rest, rfl⟩
        · exact Or.inr ⟨u, List.mem_cons_of_mem t hu, hd⟩
      · rintro (h1 | ⟨u, hu, hd⟩)
        · exact Or.inl (Or.inl h1)
        · rcases List.mem_cons.1 hu with rfl | hu2
          · exact Or.inl (Or.inr hd.symm)
          · exact Or.inr ⟨u, hu2, hd⟩

theorem mem_keys_esAfterLogs (logs : List EnergyLog) (x : ℤ) :
    x ∈ (esAfterLogs logs).map Prod.fst ↔ ∃ log ∈ logs, log.date = x := by
  have h : ∀ init : List (ℤ × ESBucket),
      x ∈ ((logs.foldl (fun m log =>
          setAssoc log.date ⟨log.energy_level, log.stress_level, 0, 0⟩ m) init).map
            Prod.fst)
        ↔ x ∈ init.map Prod.fst ∨ ∃ log ∈ logs, log.date = x := by
    induction logs with
    | nil => intro init; simp
    | cons log rest ih =>
        intro init
        rw [List.foldl_cons, ih, mem_keys_setAssoc]
        constructor
        · rintro ((h1 | rfl) | ⟨u, hu, hd⟩)
          · exact Or.inl h1
          · exact Or.inr ⟨log, List.mem_cons_self log rest, rfl⟩
          · exact Or.inr ⟨u, List.mem_cons_of_mem log hu, hd⟩
        · rintro (h1 | ⟨u, hu, hd⟩)
          · exact Or.inl (Or.inl h1)
          · rcases List.mem_cons.1 hu with rfl | hu2
            · exact Or.inl (Or.inr hd.symm)
            · exact Or.inr ⟨u, hu2, hd⟩
  simpa using h []

theorem keys_esAfterTransactions (txns : List Txn) :
    ∀ m : List (ℤ × ESBucket),
      (esAfterTransactions txns m).map Prod.fst = m.map Prod.fst := by
  induction txns with
  | nil => intro m; rfl
  | cons t rest ih =>
      intro m
      simp only [esAfterTransactions, List.foldl_cons] at ih ⊢
      rw [ih]
      by_cases ht : t.type = "expense"
      · rw [if_pos ht, keys_updateAssoc]
      · rw [if_neg ht]

theorem nodup_keys_tmAfterActivities (acts : List Activity) :
    ((tmAfterActivities acts).map Prod.fst).Nodup :=
  foldl_nodup_keys _ (fun _ _ h => nodup_keys_upsertAssoc _ _ _ _ h) acts []
    (by simp)

theorem nodup_keys_tmFinal (acts : List Activity) (ints : List Interruption)
    (txns : List Txn) :
    ((tmAfterTransactions txns
        (tmAfterInterruptions ints (tmAfterActivities acts))).map Prod.fst).Nodup := by
  have h1 : ((tmAfterInterruptions ints (tmAfterActivities acts)).map Prod.fst).Nodup := by
    rw [keys_tmAfterInterruptions]
    exact nodup_keys_tmAfterActivities acts
  exact foldl_nodup_keys _ (fun _ _ h => nodup_keys_upsertAssoc _ _ _ _ h) txns _ h1

theorem nodup_keys_esFinal (logs : List EnergyLog) (txns : List Txn) :
    ((esAfterTransactions txns (esAfterLogs logs)).map Prod.fst).Nodup := by
  have h1 : ((esAfterLogs logs).map Prod.fst).Nodup :=
    foldl_nodup_keys _ (fun _ _ h => nodup_keys_setAssoc _ _ _ h) logs [] (by simp)
  refine foldl_nodup_keys _ ?_ txns _ h1
  intro m t h
  split
  · rwa [keys_updateAssoc]
  · exact h

theorem pairwise_keys_mergeSort {β : Type} (m : List (ℤ × β)) :
    (m.mergeSort (fun p q => decide (p.1 ≤ q.1))).Pairwise
      (fun p q : ℤ × β => decide (p.1 ≤ q.1) = true) := by
  apply List.sorted_mergeSort
  · intro a b c h1 h2
    simp only [decide_eq_true_eq] at *
    omega
  · intro a b
    simp only [Bool.or_eq_true, decide_eq_true_eq]
    omega

theorem length_filter_eq_of_nodup {γ : Type} (l : List γ) (f : γ → ℤ) (d : ℤ)
    (h : (l.map f).Nodup) :
    (l.filter (fun r => decide (f r = d))).length = if d ∈ l.map f then 1 else 0 := by
  induction l with
  | nil => simp
  | cons x rest ih =>
      rw [List.map_cons, List.nodup_cons] at h
      by_cases hx : f x = d
      · rw [List.filter_cons_of_pos (by simpa using hx), List.length_cons,
          ih h.2, if_neg (hx ▸ h.1), List.map_cons,
          if_pos (by rw [List.mem_cons]; exact Or.inl hx.symm)]
      · rw [List.filter_cons_of_neg (by simpa using hx), ih h.2, List.map_cons]
        by_cases hd : d ∈ rest.map f
        · rw [if_pos hd, if_pos (List.mem_cons_of_mem _ hd)]
        · rw [if_neg hd, if_neg (by
            rw [List.mem_cons]
            push_neg
            exact ⟨fun he => hx he.symm, hd⟩)]

/-- C6: the energy-spending correlation emits exactly one record per date
that has an energy log and no record for any date lacking one (expense
transactions on logless dates are ignored); the time-money correlation emits
a record for a date exactly when that date has at least one activity or at
least one transaction; both outputs are sorted ascending by date. -/
theorem correlation_bucket_spec (logs : List EnergyLog) (txns : List Txn)
    (acts : List Activity) (ints : List Interruption) (d : ℤ) :
    (((get_energy_spending_correlation logs txns).filter
        (fun r => decide (r.date = d))).length
      = if ∃ log ∈ logs, log.date = d then 1 else 0)
    ∧ ((∃ r ∈ get_time_money_correlation acts ints txns, r.date = d)
        ↔ ((∃ a ∈ acts, dayOf a.start_time = d) ∨ ∃ t ∈ txns, t.date = d))
    ∧ ((get_energy_spending_correlation logs txns).map (fun r => r.date)).Pairwise
        (· ≤ ·)
    ∧ ((get_time_money_correlation acts ints txns).map (fun r => r.date)).Pairwise
        (· ≤ ·) := by
  have hESd : (get_energy_spending_correlation logs txns).map (fun r => r.date)
      = ((esAfterTransactions txns (esAfterLogs logs)).mergeSort
          (fun p q => decide (p.1 ≤ q.1))).map Prod.fst := by
    simp only [get_energy_spending_correlation, List.map_map]
    rfl
  have hTMd : (get_time_money_correlation acts ints txns).map (fun r => r.date)
      = ((tmAfterTransactions txns
            (tmAfterInterruptions ints (tmAfterActivities acts))).mergeSort
          (fun p q => decide (p.1 ≤ q.1))).map Prod.fst := by
    simp only [get_time_money_correlation, List.map_map]
    rfl
  have hESperm := (List.mergeSort_perm (esAfterTransactions txns (esAfterLogs logs))
      (fun p q => decide (p.1 ≤ q.1))).map Prod.fst
  have hTMperm := (List.mergeSort_perm
      (tmAfterTransactions txns (tmAfterInterruptions ints (tmAfterActivities acts)))
      (fun p q => decide (p.1 ≤ q.1))).map Prod.fst
  have hESmem : d ∈ (get_energy_spending_correlation logs txns).map (fun r => r.date)
      ↔ ∃ log ∈ logs, log.date = d := by
    rw [hESd, hESperm.mem_iff, keys_esAfterTransactions txns (esAfterLogs logs)]
    exact mem_keys_esAfterLogs logs d
  refine ⟨?_, ?_, ?_, ?_⟩
  · have hnd : ((get_energy_spending_correlation logs txns).map
        (fun r => r.date)).Nodup := by
      rw [hESd]
      exact hESperm.nodup_iff.2 (nodup_keys_esFinal logs txns)
    have hlen := length_filter_eq_of_nodup
      (get_energy_spending_correlation logs txns) (fun r => r.date) d hnd
    rw [hlen, if_congr hESmem rfl rfl]
  · rw [show (∃ r ∈ get_time_money_correlation acts ints txns, r.date = d)
        ↔ d ∈ (get_time_money_correlation acts ints txns).map (fun r => r.date)
      from List.mem_map.symm]
    rw [hTMd, hTMperm.mem_iff, mem_keys_tmAfterTransactions txns d,
      keys_tmAfterInterruptions ints (tmAfterActivities acts)]
    rw [mem_keys_tmAfterActivities acts d]
  · rw [hESd]
    refine List.Pairwise.map Prod.fst ?_
      (pairwise_keys_mergeSort (esAfterTransactions txns (esAfterLogs logs)))
    intro a b h
    simpa using h
  · rw [hTMd]
    refine List.Pairwise.map Prod.fst ?_
      (pairwise_keys_mergeSort (tmAfterTransactions txns
        (tmAfterInterruptions ints (tmAfterActivities acts))))
    intro a b h
    simpa using h

theorem foldl_forall {β γ : Type} (P : ℤ × β → Prop)
    (step : List (ℤ × β) → γ → List (ℤ × β))
    (hstep : ∀ m a, (∀ p ∈ m, P p) → ∀ p ∈ step m a, P p)
    (l : List γ) : ∀ init, (∀ p ∈ init, P p) → ∀ p ∈ l.foldl step init, P p := by
  induction l with
  | nil => intro init h; exact h
  | cons a rest ih => intro init h; exact ih _ (hstep init a h)

theorem tmTxnUpdate_interruption_count (t : Txn) (b : TMBucket) :
    (tmTxnUpdate t b).interruption_count = b.interruption_count := by
  rw [tmTxnUpdate]
  split <;> rfl

/-- C10: in the time-money correlation, a date with at least one transaction
and at least one interruption but no activity IS emitted, but its record has
`interruption_count = 0`: the interruption pass only increments buckets that
already exist, and it runs before the transaction pass creates the
transaction-only buckets, so those interruptions are silently dropped. -/
theorem tm_interruptions_dropped (acts : List Activity) (ints : List Interruption)
    (txns : List Txn) (d : ℤ)
    (hno : ∀ a ∈ acts, dayOf a.start_time ≠ d)
    (hint : ∃ i ∈ ints, dayOf i.time = d)
    (htxn : ∃ t ∈ txns, t.date = d) :
    (∃ r ∈ get_time_money_correlation acts ints txns, r.date = d)
    ∧ ∀ r ∈ get_time_money_correlation acts ints txns,
        r.date = d → r.interruption_count = 0 := by
  have hd2 : d ∉ (tmAfterInterruptions ints (tmAfterActivities acts)).map Prod.fst := by
    rw [keys_tmAfterInterruptions, mem_keys_tmAfterActivities]
    rintro ⟨a, ha, hda⟩
    exact hno a ha hda
  have hP2 : ∀ p ∈ tmAfterInterruptions ints (tmAfterActivities acts),
      p.1 = d → p.2.interruption_count = 0 := by
    intro p hp hpd
    exact absurd (List.mem_map.2 ⟨p, hp, hpd⟩) hd2
  have hP3 : ∀ p ∈ tmAfterTransactions txns
      (tmAfterInterruptions ints (tmAfterActivities acts)),
      p.1 = d → p.2.interruption_count = 0 := by
    refine foldl_forall
      (fun p : ℤ × TMBucket => p.1 = d → p.2.interruption_count = 0) _ ?_ txns _ hP2
    intro m t hm
    refine upsertAssoc_forall _ tmInit (tmTxnUpdate t) t.date m hm ?_ ?_
    · intro p _ hp hpd
      rw [tmTxnUpdate_interruption_count]
      exact hp hpd
    · intro _
      rw [tmTxnUpdate_interruption_count]
      rfl
  constructor
  · have hmem : d ∈ (get_time_money_correlation acts ints txns).map
        (fun r => r.date) := by
      have hTMd : (get_time_money_correlation acts ints txns).map (fun r => r.date)
          = ((tmAfterTransactions txns
                (tmAfterInterruptions ints (tmAfterActivities acts))).mergeSort
              (fun p q => decide (p.1 ≤ q.1))).map Prod.fst := by
        simp only [get_time_money_correlation, List.map_map]
        rfl
      have hTMperm := (List.mergeSort_perm
          (tmAfterTransactions txns
            (tmAfterInterruptions ints (tmAfterActivities acts)))
          (fun p q => decide (p.1 ≤ q.1))).map (Prod.fst (β := TMBucket))
      rw [hTMd, hTMperm.mem_iff, mem_keys_tmAfterTransactions txns d]
      exact Or.inr htxn
    exact List.mem_map.1 hmem
  · intro r hr hrd
    simp only [get_time_money_correlation, List.mem_map] at hr
    obtain ⟨p, hp, rfl⟩ := hr
    have hpm : p ∈ tmAfterTransactions txns
        (tmAfterInterruptions ints (tmAfterActivities acts)) :=
      List.mem_mergeSort.1 hp
    exact hP3 p hpm hrd

/-- C10's statement instantiated: one interruption and one expense on day 0,
no activities — the emitted day-0 record exists and counts 0 interruptions. -/
theorem tm_interruptions_dropped_witness :
    ((∀ a ∈ ([] : List Activity), dayOf a.start_time ≠ 0) ∧
      (∃ i ∈ [(⟨0, none, none⟩ : Interruption)], dayOf i.time = 0) ∧
      (∃ t ∈ [(⟨0, 5, "expense"⟩ : Txn)], t.date = 0)) ∧
      ((∃ r ∈ get_time_money_correlation [] [⟨0, none, none⟩] [⟨0, 5, "expense"⟩],
          r.date = 0)
        ∧ ∀ r ∈ get_time_money_correlation [] [⟨0, none, none⟩] [⟨0, 5, "expense"⟩],
            r.date = 0 → r.interruption_count = 0) :=
  ⟨⟨by decide, by decide, by decide⟩,
    tm_interruptions_dropped [] [⟨0, none, none⟩] [⟨0, 5, "expense"⟩] 0
      (by decide) (by decide) (by decide)⟩

/-! ## Cross-domain insights (`get_cross_domain_insights`, Insight 1) -/

/-- The `data` payload of the energy-spending insight. -/
structure ESInsightData where
  low_energy_avg : ℚ
  high_energy_avg : ℚ
  difference_percent : ℚ
  deriving DecidableEq, Repr

/-- Insight 1 of `get_cross_domain_insights` ("Low Energy Days → Higher
Spending").  The two mean divisions are guarded by the non-emptiness check,
but the `difference_percent` division `(avg_low - avg_high) / avg_high` is
not: when `avg_high = 0` Python raises `ZeroDivisionError`, modelled here as
`Except.error ()`.  `Except.ok none` means the insight does not fire. -/
def energy_spending_insight (energy_logs : List EnergyLog)
    (transactions : List Txn) : Except Unit (Option ESInsightData) :=
  let low_energy_days := energy_logs.filter (fun e => decide (e.energy_level ≤ 2))
  let high_energy_days := energy_logs.filter (fun e => decide (4 ≤ e.energy_level))
  if low_energy_days ≠ [] ∧ high_energy_days ≠ [] then
    let low_energy_dates := low_energy_days.map (fun e => e.date)
    let high_energy_dates := high_energy_days.map (fun e => e.date)
    let low_energy_spending := ((transactions.filter (fun t =>
        decide (t.type = "expense" ∧ t.date ∈ low_energy_dates))).map
          (fun t => t.amount)).sum
    let high_energy_spending := ((transactions.filter (fun t =>
        decide (t.type = "expense" ∧ t.date ∈ high_energy_dates))).map
          (fun t => t.amount)).sum
    let avg_low := low_energy_spending / (low_energy_days.length : ℚ)
    let avg_high := high_energy_spending / (high_energy_days.length : ℚ)
    if avg_high * (12/10) < avg_low then
      if avg_high = 0 then Except.error ()
      else Except.ok (some ⟨round2 avg_low, round2 avg_high,
        round1 ((avg_low - avg_high) / avg_high * 100)⟩)
    else Except.ok none
  else Except.ok none

/-- C2: the energy-spending insight is NOT guarded against a zero mean
high-energy-day expense: with one low-energy day carrying a 10-unit expense
and one high-energy day carrying none, the percentage-difference computation
divides by `avg_high = 0` and faults (Python: `ZeroDivisionError`, surfaced
by the route as an HTTP 500). -/
theorem energy_spending_insight_zero_div :
    energy_spending_insight [⟨0, 1, 3⟩, ⟨1, 5, 3⟩] [⟨0, 10, "expense"⟩]
      = Except.error () := by
  norm_num [energy_spending_insight]

end IRoutine
